import Mathlib

/-!
Verification of the streaming-response pipeline of the openai-hub repository.

The repository contains two near-duplicate PyQt chat front-ends,
`src/deep.py` and `src/deepsekonemm.py`.  This file gives a shallow
embedding of the parts of both programs that the specification's claims
are about:

* a model of Python's `json.loads` on the JSON subset the stream uses
  (`JVal`, `parseJson`),
* the per-line stream-consuming loop of `AIWorker.run` (deep.py, lines
  215-268) and of `Worker.run` (deepsekonemm.py, lines 88-151) including
  the latter's retry loop,
* the regex-based code-fence scanners `MainWindow.process_code_blocks`
  (deep.py) and `MainWindow.extract_code_blocks` (deepsekonemm.py),
* the history/display mutations of the two `MainWindow` controllers.

Python strings are modelled as Lean `String`s (sequences of unicode code
points); `bytes` values that the programs only ever decode as UTF-8 are
modelled by the decoded strings.
-/

/-- Characters treated as whitespace by the JSON grammar (`json.loads`). -/
def jsonWs (c : Char) : Bool := c = ' ' || c = '\t' || c = '\n' || c = '\r'

/-- Characters stripped by Python's `str.strip()` / `bytes.strip()`
(ASCII whitespace; the two vertical-tab/form-feed characters included). -/
def pyWs (c : Char) : Bool := jsonWs c || c = Char.ofNat 11 || c = Char.ofNat 12

/-- Python `s.strip()` on the code-point model. -/
def pyTrim (s : String) : String :=
  String.mk (((s.toList.dropWhile pyWs).reverse.dropWhile pyWs).reverse)

/-- Does the character list `s` start with the pattern `pat`? -/
def listStartsWith : List Char → List Char → Bool
  | [], _ => true
  | _ :: _, [] => false
  | p :: ps, c :: cs => p = c && listStartsWith ps cs

/-- Python `s.startswith(pre)`. -/
def strStartsWith (s pre : String) : Bool := listStartsWith pre.toList s.toList

/-- Python `s[n:]` on the code-point model. -/
def strDrop (s : String) (n : Nat) : String := String.mk (s.toList.drop n)

/-- Python `s.split(sep)` for a nonempty separator, on character lists:
cut at each leftmost non-overlapping occurrence.  The fuel is one more
than the input length, which always suffices. -/
def pySplitAux (sep : List Char) : Nat → List Char → List (List Char)
  | 0, s => [s]
  | _, [] => [[]]
  | fuel + 1, c :: rest =>
    if listStartsWith sep (c :: rest) then
      [] :: pySplitAux sep fuel ((c :: rest).drop sep.length)
    else
      match pySplitAux sep fuel rest with
      | head :: tail => (c :: head) :: tail
      | [] => [[c]]

/-- Python `s.split(sep)` on character lists. -/
def pySplitList (sep s : List Char) : List (List Char) :=
  pySplitAux sep (s.length + 1) s

/-- Python `s.split(sep)` on strings (nonempty separator). -/
def pySplit (s sep : String) : List String :=
  (pySplitList sep.toList s.toList).map String.mk

/-- JSON values as produced by `json.loads`: objects are Python dicts,
represented as key-value lists with distinct keys (duplicate keys in the
source text keep the last value, as in Python). Numbers keep their raw
lexeme; none of the verified code paths inspects a numeric value. -/
inductive JVal where
  | null
  | bool (b : Bool)
  | num (lexeme : String)
  | str (s : String)
  | arr (elems : List JVal)
  | obj (fields : List (String × JVal))

/-- Dict insertion while parsing an object: a repeated key overwrites the
stored value in place (Python keeps the first-occurrence position and the
last value), a new key is appended. -/
def insertPair (fields : List (String × JVal)) (k : String) (v : JVal) :
    List (String × JVal) :=
  if fields.any (fun p => p.1 = k) then
    fields.map (fun p => if p.1 = k then (k, v) else p)
  else fields ++ [(k, v)]

/-- Dict lookup `d.get(k)`: `none` models Python `None` / a missing key. -/
def objGet (fields : List (String × JVal)) (k : String) : Option JVal :=
  match fields with
  | [] => none
  | (k', v) :: rest => if k' = k then some v else objGet rest k

/-- Dict lookup with default, Python `d.get(k, d0)`. -/
def objGetD (fields : List (String × JVal)) (k : String) (d : JVal) : JVal :=
  (objGet fields k).getD d

/-- Is the field `k` present, Python `k in d` for a dict. -/
def hasKey (fields : List (String × JVal)) (k : String) : Bool :=
  fields.any (fun p => p.1 = k)

/-- Python truthiness of a decoded JSON value.  For numbers the lexeme is
inspected: a number is truthy exactly when it has a nonzero digit (this
matches Python on every number the stream protocol can carry). -/
def truthy : JVal → Bool
  | JVal.null => false
  | JVal.bool b => b
  | JVal.num lexeme => lexeme.toList.any (fun c => c.isDigit && !(c = '0'))
  | JVal.str s => !(s = "")
  | JVal.arr xs => !xs.isEmpty
  | JVal.obj fs => !fs.isEmpty

/-- Python `v == "length"`-style comparison of a `d.get(...)` result with a
string literal: only an equal string compares equal. -/
def isStrEq (v : Option JVal) (t : String) : Bool :=
  match v with
  | some (JVal.str s) => s = t
  | _ => false

/-- Skip JSON whitespace. -/
def skipWs : List Char → List Char
  | [] => []
  | c :: cs => if jsonWs c then skipWs cs else c :: cs

/-- Value of a hexadecimal digit. -/
def hexVal (c : Char) : Option Nat :=
  if c.isDigit then some (c.toNat - 48)
  else if 'a' ≤ c ∧ c ≤ 'f' then some (c.toNat - 87)
  else if 'A' ≤ c ∧ c ≤ 'F' then some (c.toNat - 55)
  else none

/-- Translation of a single-character JSON string escape. -/
def escChar (c : Char) : Option Char :=
  if c = '"' then some '"'
  else if c = '\\' then some '\\'
  else if c = '/' then some '/'
  else if c = 'n' then some '\n'
  else if c = 't' then some '\t'
  else if c = 'r' then some '\r'
  else if c = 'b' then some (Char.ofNat 8)
  else if c = 'f' then some (Char.ofNat 12)
  else none

/-- Parse the body of a JSON string after the opening quote, up to and
including the closing quote; returns the decoded characters and the rest.
Raw control characters are rejected as in `json.loads` strict mode. -/
def parseStringBody : List Char → Option (List Char × List Char)
  | [] => none
  | '"' :: cs => some ([], cs)
  | '\\' :: 'u' :: a :: b :: c :: d :: rest =>
    (match hexVal a, hexVal b, hexVal c, hexVal d with
     | some ha, some hb, some hc, some hd =>
       match parseStringBody rest with
       | some (out, rem) =>
         some (Char.ofNat (((ha * 16 + hb) * 16 + hc) * 16 + hd) :: out, rem)
       | none => none
     | _, _, _, _ => none)
  | '\\' :: e :: cs =>
    (match escChar e with
     | some ec =>
       match parseStringBody cs with
       | some (out, rem) => some (ec :: out, rem)
       | none => none
     | none => none)
  | c :: cs =>
    if c.toNat < 32 then none
    else
      match parseStringBody cs with
      | some (out, rem) => some (c :: out, rem)
      | none => none

/-- Take a maximal run of decimal digits. -/
def takeDigits : List Char → (List Char × List Char)
  | [] => ([], [])
  | c :: cs =>
    if c.isDigit then
      match takeDigits cs with
      | (d, r) => (c :: d, r)
    else ([], c :: cs)

/-- Integer part of a JSON number (no leading zeros). -/
def parseIntPart : List Char → Option (List Char × List Char)
  | [] => none
  | c :: cs =>
    if c = '0' then some ([c], cs)
    else if c.isDigit then
      match takeDigits cs with
      | (d, r) => some (c :: d, r)
    else none

/-- Optional fractional part of a JSON number. -/
def parseFrac : List Char → Option (List Char × List Char)
  | '.' :: cs =>
    (match takeDigits cs with
     | ([], _) => none
     | (d, r) => some ('.' :: d, r))
  | cs => some ([], cs)

/-- Optional exponent part of a JSON number. -/
def parseExp : List Char → Option (List Char × List Char)
  | [] => some ([], [])
  | c :: cs =>
    if c = 'e' ∨ c = 'E' then
      match cs with
      | [] => none
      | s :: cs' =>
        if s = '+' ∨ s = '-' then
          match takeDigits cs' with
          | ([], _) => none
          | (d, r) => some (c :: s :: d, r)
        else
          match takeDigits cs with
          | ([], _) => none
          | (d, r) => some (c :: d, r)
    else some ([], c :: cs)

/-- A JSON number lexeme. -/
def parseNum (cs : List Char) : Option (List Char × List Char) :=
  let (neg, cs1) :=
    match cs with
    | '-' :: r => (['-'], r)
    | r => (([] : List Char), r)
  match parseIntPart cs1 with
  | none => none
  | some (ip, cs2) =>
    match parseFrac cs2 with
    | none => none
    | some (fp, cs3) =>
      match parseExp cs3 with
      | none => none
      | some (ep, cs4) => some (neg ++ ip ++ fp ++ ep, cs4)

mutual

/-- Recursive-descent JSON value parser; `fuel` bounds the recursion depth
and is chosen large enough for any input of the given length. -/
def parseVal : Nat → List Char → Option (JVal × List Char)
  | 0, _ => none
  | Nat.succ fuel, cs =>
    match skipWs cs with
    | [] => none
    | c :: rest =>
      if c = Char.ofNat 123 then
        match skipWs rest with
        | [] => none
        | d :: r2 =>
          if d = Char.ofNat 125 then some (JVal.obj [], r2)
          else
            match parseMembers fuel [] (d :: r2) with
            | some (fs, r3) => some (JVal.obj fs, r3)
            | none => none
      else if c = '[' then
        match skipWs rest with
        | ']' :: r2 => some (JVal.arr [], r2)
        | r2 =>
          match parseElems fuel r2 with
          | some (xs, r3) => some (JVal.arr xs, r3)
          | none => none
      else if c = '"' then
        match parseStringBody rest with
        | some (out, rem) => some (JVal.str (String.mk out), rem)
        | none => none
      else if c = 't' then
        match rest with
        | 'r' :: 'u' :: 'e' :: r2 => some (JVal.bool true, r2)
        | _ => none
      else if c = 'f' then
        match rest with
        | 'a' :: 'l' :: 's' :: 'e' :: r2 => some (JVal.bool false, r2)
        | _ => none
      else if c = 'n' then
        match rest with
        | 'u' :: 'l' :: 'l' :: r2 => some (JVal.null, r2)
        | _ => none
      else
        match parseNum (c :: rest) with
        | some (lexeme, r2) => some (JVal.num (String.mk lexeme), r2)
        | none => none

/-- Members of a JSON object after the opening brace (at least one). -/
def parseMembers : Nat → List (String × JVal) → List Char →
    Option (List (String × JVal) × List Char)
  | 0, _, _ => none
  | Nat.succ fuel, acc, cs =>
    match skipWs cs with
    | '"' :: rest =>
      (match parseStringBody rest with
       | some (keyChars, r1) =>
         (match skipWs r1 with
          | ':' :: r2 =>
            (match parseVal fuel r2 with
             | some (v, r3) =>
               (match skipWs r3 with
                | [] => none
                | d :: r4 =>
                  if d = ',' then
                    parseMembers fuel (insertPair acc (String.mk keyChars) v) r4
                  else if d = Char.ofNat 125 then
                    some (insertPair acc (String.mk keyChars) v, r4)
                  else none)
             | none => none)
          | _ => none)
       | none => none)
    | _ => none

/-- Elements of a JSON array after the opening bracket (at least one). -/
def parseElems : Nat → List Char → Option (List JVal × List Char)
  | 0, _ => none
  | Nat.succ fuel, cs =>
    match parseVal fuel cs with
    | some (v, r1) =>
      (match skipWs r1 with
       | ',' :: r2 =>
         (match parseElems fuel r2 with
          | some (xs, r3) => some (v :: xs, r3)
          | none => none)
       | ']' :: r2 => some ([v], r2)
       | _ => none)
    | none => none

end

/-- Model of Python `json.loads s`: a single JSON value surrounded by
optional whitespace; anything else raises `JSONDecodeError`, modelled by
`none`. -/
def parseJson (s : String) : Option JVal :=
  match parseVal (s.toList.length + 8) s.toList with
  | some (v, rem) => if skipWs rem = [] then some v else none
  | none => none

/-- Concatenation of a list of strings (the accumulated text a sequence of
emitted fragments amounts to). -/
def concatAll : List String → String
  | [] => ""
  | s :: rest => s ++ concatAll rest

/-! ## The stream worker of `deep.py` (`AIWorker.run`, lines 215-268) -/

/-- Signals emitted by `AIWorker`: `update_received`, `truncated`,
`response_completed` (payload `"Kész!"` elided) and `error_occurred`. -/
inductive DeepEv where
  | update (text : String)
  | truncatedSig
  | completed
  | errorEv (message : String) (code : Nat)
  deriving DecidableEq, Repr

/-- The payload extraction of `AIWorker.run` lines 226-229: strip a
`data:` prefix and surrounding whitespace, otherwise strip the whole
line. -/
def deepStripData (chunk : String) : String :=
  if strStartsWith chunk "data:" then pyTrim (strDrop chunk 5) else pyTrim chunk

/-- Lines 220-242 of `deep.py`: a line yields a decoded JSON object or is
skipped; `none` covers the empty chunk, the empty payload, a payload not
starting with the object brace, and a `json.loads` failure (logged and
skipped, lines 238-242). -/
def deepDecodeLine (chunk : String) : Option JVal :=
  if chunk = "" then none
  else if deepStripData chunk = "" then none
  else if !(strStartsWith (deepStripData chunk) "\x7b") then none
  else parseJson (deepStripData chunk)

/-- One iteration of the `AIWorker.run` read loop on a decoded line
(lines 244-258), from the current byte buffer: returns the new buffer and
the emitted signals.  A branch in which the Python code would raise
(non-dict `delta`, non-string `content`, non-dict first choice, indexing a
truthy non-list `choices`) is caught by the inner `except Exception`
(line 262) and skips the line, leaving the buffer untouched. -/
def deepLineStep (buffer : String) (chunk : String) : String × List DeepEv :=
  match deepDecodeLine chunk with
  | none => (buffer, [])
  | some parsed =>
    match parsed with
    | JVal.obj fs =>
      if truthy (objGetD fs "choices" (JVal.arr [JVal.obj []])) then
        match objGetD fs "choices" (JVal.arr [JVal.obj []]) with
        | JVal.arr (JVal.obj cfs :: _) =>
          (match objGetD cfs "delta" (JVal.obj []) with
           | JVal.obj dfs =>
             (match objGetD dfs "content" (JVal.str "") with
              | JVal.str content =>
                ("", DeepEv.update
                    (if !(content = "") then buffer ++ content else content) ::
                  (if isStrEq (objGet cfs "finish_reason") "length"
                   then [DeepEv.truncatedSig] else []))
              | _ => (buffer, []))
           | _ => (buffer, []))
        | _ => (buffer, [])
      else (buffer, [])
    | _ => (buffer, [])

/-- Cooperative cancellation: `cancelAt = some k` means the `running` flag
reads `False` from the k-th loop-top check onwards; decrementing tracks the
remaining iterations until that point. -/
def decrCancel : Option Nat → Option Nat
  | none => none
  | some k => some (k - 1)

/-- The read loop of `AIWorker.run` (lines 216-268): per line, first the
`running` check (line 217, an immediate `return`, skipping the final
flush and the completion signal), then the line processing; after the
loop the leftover byte buffer is flushed (lines 265-266) and
`response_completed` is emitted (line 268). -/
def deepGo : Option Nat → String → List String → List DeepEv
  | _, buffer, [] =>
      (if !(buffer = "") then [DeepEv.update buffer] else []) ++ [DeepEv.completed]
  | cancelAt, buffer, chunk :: rest =>
      if cancelAt = some 0 then []
      else
        (deepLineStep buffer chunk).2 ++
          deepGo (decrCancel cancelAt) (deepLineStep buffer chunk).1 rest

/-- The streaming part of `AIWorker.run` on a successful (HTTP 200)
response delivering the given lines. -/
def deepWorkerEvents (lines : List String) (cancelAt : Option Nat) : List DeepEv :=
  deepGo cancelAt "" lines

/-- The `update_received` payloads among a list of worker signals. -/
def updatesOf : List DeepEv → List String
  | [] => []
  | DeepEv.update t :: rest => t :: updatesOf rest
  | _ :: rest => updatesOf rest

/-- Model of the external `requests` library: `str(e)` of the `HTTPError`
raised by `response.raise_for_status()` is built from the status code, the
reason phrase and the URL (`"429 Client Error: ... for url: ..."`) and
never from the response body; abbreviated here to its code-determined
core. -/
def reqHttpErrorStr (status : Nat) : String :=
  toString status ++ (if status < 500 then " Client Error" else " Server Error")

/-- Lines 207-211 of `deep.py`: the provider error message parsed from the
body of a non-200 response (`response.json()['error']['message']` with an
`'Unknown error'` default), falling back to the truncated raw body on a
decode or attribute error.  The result is stored in the local variable
`error`, which `AIWorker.run` never uses. -/
def deepParsedErrorMessage (body : String) : JVal :=
  match parseJson body with
  | some (JVal.obj fs) =>
    (match objGetD fs "error" (JVal.obj []) with
     | JVal.obj efs => objGetD efs "message" (JVal.str "Unknown error")
     | _ =>
       JVal.str (if body.length > 200
                 then String.mk (body.toList.take 200) ++ "..." else body))
  | _ =>
    JVal.str (if body.length > 200
              then String.mk (body.toList.take 200) ++ "..." else body)

/-- `AIWorker.run` from the initial response onward (lines 201-268): on a
status other than 200, `raise_for_status()` raises exactly for the 4xx/5xx
range, the handler computes `deepParsedErrorMessage body` into the unused
local `error` and emits `error_occurred(str(e), status)`; for any other
non-raising status, and for 200, the code proceeds to the read loop. -/
def deepRun (status : Nat) (body : String) (lines : List String)
    (cancelAt : Option Nat) : List DeepEv :=
  if status ≠ 200 then
    if 400 ≤ status ∧ status < 600 then
      let _error := deepParsedErrorMessage body
      [DeepEv.errorEv (reqHttpErrorStr status) status]
    else deepWorkerEvents lines cancelAt
  else deepWorkerEvents lines cancelAt

/-! ## The stream worker of `deepsekonemm.py` (`Worker.run`, lines 74-151) -/

/-- Signals emitted by `Worker`: `chunk_received`, `truncated`,
`finished`, `stream_interrupted`, `error_occurred`, plus the
`time.sleep` calls of the retry loop recorded as events. -/
inductive DsmEv where
  | chunk (text : String)
  | truncatedSig
  | finishedSig
  | interruptedSig
  | errorEv (message : String) (code : Nat)
  | sleepEv (seconds : Nat)
  deriving DecidableEq, Repr

/-- Mutable state of the `Worker` stream loop: the UI-coalescing `buffer`,
the accumulated `full_response` and the `was_truncated` flag. -/
structure DsmSt where
  buffer : String
  fullResponse : String
  wasTruncated : Bool
  deriving DecidableEq, Repr

/-- Worker state at the start of a request. -/
def dsmInit : DsmSt := { buffer := "", fullResponse := "", wasTruncated := false }

/-- Outcome of processing one line: updated state and emitted signals, or
an uncaught Python exception (only `json.JSONDecodeError` is caught inside
the loop, line 124). -/
inductive DsmStepRes where
  | ok (st : DsmSt) (evs : List DsmEv)
  | exc
  deriving Repr

/-- Python `key in v` for a decoded JSON value: key membership for a dict,
element membership for a list, substring test for a string, and a
`TypeError` (`none`) otherwise. -/
def pyInStr (key : String) (v : JVal) : Option Bool :=
  match v with
  | JVal.obj fs => some (hasKey fs key)
  | JVal.arr xs => some (xs.any (fun x => isStrEq (some x) key))
  | JVal.str s => some (decide ((pySplitList key.toList s.toList).length > 1) || key = "")
  | _ => none

/-- Lines 107-111 of `deepsekonemm.py`: only a `data:`-prefixed line is
decoded (`json.loads(decoded_chunk[5:].strip())`); other lines are
skipped, and a decode failure `continue`s. -/
def dsmDecodeLine (line : String) : Option JVal :=
  if line = "" then none
  else if strStartsWith line "data:" then parseJson (pyTrim (strDrop line 5))
  else none

/-- One iteration of the `Worker.run` stream loop on a line
(lines 107-125).  The `finish_reason` check precedes the `delta` check;
the content is appended to `full_response` and `buffer`, and the buffer
is flushed as a `chunk_received` signal once it exceeds 50 characters or
contains a newline. -/
def dsmLineStep (st : DsmSt) (line : String) : DsmStepRes :=
  match dsmDecodeLine line with
  | none => DsmStepRes.ok st []
  | some j =>
    match pyInStr "choices" j with
    | none => DsmStepRes.exc
    | some false => DsmStepRes.ok st []
    | some true =>
      match j with
      | JVal.obj fs =>
        (match objGet fs "choices" with
         | some (JVal.arr (JVal.obj cfs :: _)) =>
           (match objGet cfs "delta" with
            | none =>
              DsmStepRes.ok
                { st with wasTruncated :=
                    st.wasTruncated || isStrEq (objGet cfs "finish_reason") "length" } []
            | some d =>
              if truthy d then
                match pyInStr "content" d with
                | none => DsmStepRes.exc
                | some false =>
                  DsmStepRes.ok
                    { st with wasTruncated :=
                        st.wasTruncated || isStrEq (objGet cfs "finish_reason") "length" } []
                | some true =>
                  match d with
                  | JVal.obj dfs =>
                    (match objGet dfs "content" with
                     | some (JVal.str content) =>
                       if decide ((st.buffer ++ content).length > 50) ||
                          (st.buffer ++ content).toList.any (fun c => c = '\n') then
                         DsmStepRes.ok
                           { buffer := "", fullResponse := st.fullResponse ++ content,
                             wasTruncated :=
                               st.wasTruncated ||
                                 isStrEq (objGet cfs "finish_reason") "length" }
                           [DsmEv.chunk (st.buffer ++ content)]
                       else
                         DsmStepRes.ok
                           { buffer := st.buffer ++ content,
                             fullResponse := st.fullResponse ++ content,
                             wasTruncated :=
                               st.wasTruncated ||
                                 isStrEq (objGet cfs "finish_reason") "length" } []
                     | _ => DsmStepRes.exc)
                  | _ => DsmStepRes.exc
              else
                DsmStepRes.ok
                  { st with wasTruncated :=
                      st.wasTruncated || isStrEq (objGet cfs "finish_reason") "length" } [])
         | some _ => DsmStepRes.exc
         | none => DsmStepRes.ok st [])
      | _ => DsmStepRes.exc

/-- The stream loop of `Worker.run` (lines 101-134) with cooperative
cancellation as in `deepGo`: the `is_running` check (line 103) emits
`stream_interrupted` and returns; after the loop the leftover buffer is
flushed (lines 128-129), `truncated` is emitted if the flag was set
(lines 131-132) and `finished` is emitted (line 133).  An uncaught
per-line exception escapes to the outer handler (lines 148-151), which
emits `error_occurred(f"Hiba: {str(e)}", 500)` (exception text abstracted)
and `stream_interrupted`. -/
def dsmGoFull : Option Nat → DsmSt → List String → DsmSt × List DsmEv
  | _, st, [] =>
      (st, (if !(st.buffer = "") then [DsmEv.chunk st.buffer] else []) ++
           (if st.wasTruncated then [DsmEv.truncatedSig] else []) ++
           [DsmEv.finishedSig])
  | cancelAt, st, line :: rest =>
      if cancelAt = some 0 then (st, [DsmEv.interruptedSig])
      else
        match dsmLineStep st line with
        | DsmStepRes.ok st' evs =>
            ((dsmGoFull (decrCancel cancelAt) st' rest).1,
             evs ++ (dsmGoFull (decrCancel cancelAt) st' rest).2)
        | DsmStepRes.exc =>
            (st, [DsmEv.errorEv "Hiba: exception" 500, DsmEv.interruptedSig])

/-- Events of the `Worker` stream loop. -/
def dsmGo (cancelAt : Option Nat) (st : DsmSt) (lines : List String) : List DsmEv :=
  (dsmGoFull cancelAt st lines).2

/-- Events of a full stream pass from a fresh worker state. -/
def dsmStreamEvents (lines : List String) (cancelAt : Option Nat) : List DsmEv :=
  dsmGo cancelAt dsmInit lines

/-- Final worker state of a full stream pass from a fresh state. -/
def dsmStreamState (lines : List String) (cancelAt : Option Nat) : DsmSt :=
  (dsmGoFull cancelAt dsmInit lines).1

/-- The `chunk_received` payloads among a list of worker signals. -/
def chunksOf : List DsmEv → List String
  | [] => []
  | DsmEv.chunk t :: rest => t :: chunksOf rest
  | _ :: rest => chunksOf rest

/-- Outcome of one `requests.post` attempt in `Worker.run`, as seen by the
worker: an HTTP response with a status code and (for 200) the stream
lines, a `requests.exceptions.Timeout`, or another
`requests.exceptions.RequestException` carrying `str(e)`. -/
inductive Attempt where
  | http (status : Nat) (lines : List String)
  | timeout
  | reqErr (msg : String)
  deriving Repr

/-- The retry loop of `Worker.run` (lines 88-145), with
`budget = 3 - retry_count` (the loop guard is `retry_count < 3`; the
`is_running` flag is `True` throughout — cancellation of the stream loop
itself is modelled in `dsmGoFull`).  Status 429 emits an error, sleeps 60
seconds, increments `retry_count` and retries; any other non-200 status
emits an error and returns; a timeout emits an error with code 408,
increments, sleeps 5 seconds, emits a final error once `retry_count`
reaches 3, and retries; any other request exception emits an error and
`stream_interrupted` and returns. -/
def dsmRunAux : Nat → List Attempt → List DsmEv
  | 0, _ => []
  | _ + 1, [] => []
  | budget + 1, Attempt.http status lines :: rest =>
      if status = 429 then
        DsmEv.errorEv "Túl sok kérés. Várj 60 másodpercet..." 429 ::
          DsmEv.sleepEv 60 :: dsmRunAux budget rest
      else if status ≠ 200 then
        [DsmEv.errorEv ("API Hiba: " ++ toString status) status]
      else dsmStreamEvents lines none
  | budget + 1, Attempt.timeout :: rest =>
      DsmEv.errorEv "Időtúllépés. Újrapróbálkozás..." 408 :: DsmEv.sleepEv 5 ::
        ((if budget = 0 then
            [DsmEv.errorEv "Túl sok próbálkozás. Kérlek próbáld újra később." 500]
          else []) ++ dsmRunAux budget rest)
  | _ + 1, Attempt.reqErr msg :: _ =>
      [DsmEv.errorEv ("Hálózati hiba: " ++ msg) 500, DsmEv.interruptedSig]

/-- `Worker.run` on a sequence of network-attempt outcomes. -/
def dsmRun (attempts : List Attempt) : List DsmEv := dsmRunAux 3 attempts

/-! ## Well-formed stream payloads

For the chunking-independence property the payload of a well-formed
`data:` line is summarised by the optional `content` string of the first
choice's `delta`.  `contentOf j = some c` holds exactly when both workers
process the decoded value `j` without raising: the `choices` key may be
absent (`deep.py` then substitutes `[{}]`, `deepsekonemm.py` skips the
line), else it must be a nonempty list whose head is a dict, whose
`delta` is absent or a dict, whose `content` is absent or a string. -/

/-- Content summary of a well-formed decoded payload (see above). -/
def contentOf (j : JVal) : Option (Option String) :=
  match j with
  | JVal.obj fs =>
    (match objGet fs "choices" with
     | none => some none
     | some (JVal.arr (JVal.obj cfs :: _)) =>
       (match objGet cfs "delta" with
        | none => some none
        | some (JVal.obj dfs) =>
          (match objGet dfs "content" with
           | none => some none
           | some (JVal.str c) => some (some c)
           | some _ => none)
        | some _ => none)
     | some _ => none)
  | _ => none

/-- A well-formed stream line with content summary `c`: a `data:`-prefixed
line whose payload decodes and is well formed in the sense of
`contentOf`. -/
def wfLineB (l : String) (c : Option String) : Bool :=
  strStartsWith l "data:" && decide ((deepDecodeLine l).bind contentOf = some c)

/-- A well-formed sequence of stream lines with their content summaries. -/
def wfLinesB : List String → List (Option String) → Bool
  | [], [] => true
  | l :: ls, c :: cs => wfLineB l c && wfLinesB ls cs
  | _, _ => false

/-! ## The code-fence scanners

`deep.py` line 1083 uses
`re.finditer(r"^(```([a-zA-Z]{3,})\n(.*?)\n```)$", text, re.MULTILINE | re.DOTALL)`;
`deepsekonemm.py` line 1067 uses
`re.findall(r'```([\w\+]*)\n?([\s\S]*?)\n```', text)`.
Both scanners below transliterate the backtracking behaviour of those
patterns: matches are sought left to right, a greedy language group is
maximal, `\n?` prefers to consume a newline, and the lazy body stops at
the earliest closing fence; scanning resumes after each match. -/

/-- The backtick character. -/
def bq : Char := Char.ofNat 96

/-- Does the character list begin with a triple-backtick fence? -/
def startsFence : List Char → Bool
  | a :: b :: c :: _ => a = bq && b = bq && c = bq
  | _ => false

/-- Python `\w` (on the ASCII range the inputs use) together with `+`,
the language-tag alphabet of the `deepsekonemm.py` pattern. -/
def isWordPlus (c : Char) : Bool := c.isAlphanum || c = '_' || c = '+'

/-- An ASCII letter, the language-tag alphabet of the `deep.py` pattern. -/
def isAsciiLetter (c : Char) : Bool := ('a' ≤ c && c ≤ 'z') || ('A' ≤ c && c ≤ 'Z')

/-- Take the maximal prefix satisfying `p` (a greedy character class). -/
def takeWhileSplit (p : Char → Bool) : List Char → (List Char × List Char)
  | [] => ([], [])
  | c :: cs =>
    if p c then
      match takeWhileSplit p cs with
      | (t, r) => (c :: t, r)
    else ([], c :: cs)

/-- Earliest occurrence of a closing fence `"\n＼``"`-style sequence
(newline followed by three backticks): returns the body before it and the
text after the three backticks. -/
def findClose : List Char → Option (List Char × List Char)
  | [] => none
  | c :: cs =>
    if c = '\n' && startsFence cs then some ([], cs.drop 3)
    else
      match findClose cs with
      | some (pre, rem) => some (c :: pre, rem)
      | none => none

/-- Attempt to match the `deepsekonemm.py` pattern at this position: a
fence, a maximal `[\w\+]*` tag, `\n?` preferring to consume a newline,
then the lazy body up to the earliest closing fence.  If no closing fence
follows the consumed newline, the `\n?` backtracks to empty. -/
def dsmTryAt (cs : List Char) : Option (String × String × List Char) :=
  match cs with
  | a :: b :: c :: cs1 =>
    if a = bq && b = bq && c = bq then
      match takeWhileSplit isWordPlus cs1 with
      | (langCh, cs2) =>
        match cs2 with
        | '\n' :: cs3 =>
          (match findClose cs3 with
           | some (body, rem) => some (String.mk langCh, String.mk body, rem)
           | none =>
             match findClose cs2 with
             | some (body, rem) => some (String.mk langCh, String.mk body, rem)
             | none => none)
        | _ =>
          match findClose cs2 with
          | some (body, rem) => some (String.mk langCh, String.mk body, rem)
          | none => none
    else none
  | _ => none

/-- Left-to-right scan of `re.findall` for the `deepsekonemm.py` pattern:
try each position, resume after the end of a match. -/
def dsmScanAux : Nat → List Char → List (String × String)
  | 0, _ => []
  | _, [] => []
  | fuel + 1, cs =>
    match dsmTryAt cs with
    | some (lang, body, rem) => (lang, body) :: dsmScanAux fuel rem
    | none =>
      match cs with
      | [] => []
      | _ :: rest => dsmScanAux fuel rest

/-- `MainWindow.extract_code_blocks` of `deepsekonemm.py`
(lines 1061-1078): scan the text, default an empty stripped tag to
`"text"`, strip the code and keep only nonempty code blocks. -/
def dsmExtractBlocks (text : String) : List (String × String) :=
  (dsmScanAux text.toList.length text.toList).filterMap (fun p =>
    let language := if pyTrim p.1 = "" then "text" else pyTrim p.1
    let code := pyTrim p.2
    if !(code = "") then some (language, code) else none)

/-- Earliest closing fence that also satisfies the final `$` of the
`deep.py` pattern under `re.MULTILINE`: the three backticks are at the end
of the text or directly followed by a newline. -/
def findCloseDollar : List Char → Option (List Char × List Char)
  | [] => none
  | c :: cs =>
    if c = '\n' && startsFence cs &&
       (match cs.drop 3 with
        | [] => true
        | d :: _ => d = '\n') then
      some ([], cs.drop 3)
    else
      match findCloseDollar cs with
      | some (pre, rem) => some (c :: pre, rem)
      | none => none

/-- Attempt to match the `deep.py` pattern at a line-start position: a
fence, a maximal run of at least three ASCII letters followed directly by
a newline, then the lazy body up to the earliest `$`-respecting closing
fence. -/
def deepTryAt (cs : List Char) : Option (String × String × List Char) :=
  match cs with
  | a :: b :: c :: cs1 =>
    if a = bq && b = bq && c = bq then
      match takeWhileSplit isAsciiLetter cs1 with
      | (langCh, cs2) =>
        if langCh.length ≥ 3 then
          match cs2 with
          | '\n' :: cs3 =>
            (match findCloseDollar cs3 with
             | some (body, rem) => some (String.mk langCh, String.mk body, rem)
             | none => none)
          | _ => none
        else none
    else none
  | _ => none

/-- Left-to-right scan of `re.finditer` for the `deep.py` pattern: the
leading `^` under `re.MULTILINE` restricts match starts to the start of
the text or a position after a newline. -/
def deepScanAux : Nat → Bool → List Char → List (String × String)
  | 0, _, _ => []
  | _, _, [] => []
  | fuel + 1, atLineStart, cs =>
    match (if atLineStart then deepTryAt cs else none) with
    | some (lang, body, rem) => (lang, body) :: deepScanAux fuel false rem
    | none =>
      match cs with
      | [] => []
      | c :: rest => deepScanAux fuel (c = '\n') rest

/-- `MainWindow.process_code_blocks` of `deep.py` (lines 1081-1087): the
matched blocks with stripped language and code (the per-tab exact-code
deduplication of `add_code_tab` acts downstream of this list). -/
def deepExtractBlocks (text : String) : List (String × String) :=
  (deepScanAux text.toList.length true text.toList).map (fun p =>
    (pyTrim p.1, pyTrim p.2))

/-! ## The `MainWindow` controllers -/

/-- A conversation message as stored in the history lists. -/
structure Msg where
  role : String
  content : String
  deriving DecidableEq, Repr

/-- A user message. -/
def userMsg (c : String) : Msg := { role := "user", content := c }

/-- An assistant message. -/
def assistantMsg (c : String) : Msg := { role := "assistant", content := c }

/-- The `SYSTEM_MESSAGE` constant of `deepsekonemm.py` (lines 40-47; the
adjacent Python string literals concatenate without separators). -/
def systemMessage : Msg :=
  { role := "system"
    content := "Professzionális kódoló asszisztens vagy, magyarul beszélsz mindig. Python, kotlin, java, PHP, JavaScript és Excel függvényekre specializálódva.Tiszta, hatékony kódot adj meg a legjobb gyakorlatokkal. Tüntesd fel a szükséges függőségeket és világos magyarázatokat, amikor kérik.Excel esetén képleteket és VBA megoldásokat is adj meg, amikor szükséges." }

/-- State of the `deep.py` `MainWindow` as far as the claims are
concerned: the history list, the chat display text, the coalescing
buffer (`buffered_text`), the `is_generating` flag, whether the
send/continue/upload/input controls are enabled (`set_ui_state`), and an
identity counter for the worker object currently referenced by
`self.worker`. -/
structure DeepWin where
  history : List Msg
  displayed : String
  bufferedText : String
  isGenerating : Bool
  uiEnabled : Bool
  workerId : Nat
  deriving DecidableEq, Repr

/-- `MainWindow.handle_update` (lines 410-413): append the emitted text
to `buffered_text` (the coalescing timer start is pure scheduling). -/
def deepHandleUpdate (w : DeepWin) (text : String) : DeepWin :=
  { w with bufferedText := w.bufferedText ++ text }

/-- `MainWindow.flush_buffer` (lines 415-420): a nonempty coalescing
buffer is appended to the chat display in one update and cleared. -/
def deepFlushBuffer (w : DeepWin) : DeepWin :=
  if !(w.bufferedText = "") then
    { w with displayed := w.displayed ++ w.bufferedText, bufferedText := "" }
  else w

/-- The user-turn header `start_request` writes to the chat display
(line 908). -/
def userHeader (prompt : String) : String :=
  "**Felhasználó:** " ++ prompt ++ "\n\n\n***\n"

/-- `MainWindow.start_request` (lines 886-932).  The guard clauses show a
warning box and return; otherwise the controls are disabled,
`is_generating` is set, on a non-continuation the stripped prompt is
appended to the history and echoed to the display, and a fresh
`AIWorker` replaces `self.worker` unconditionally — there is no check of
any in-flight session.  The returned option is the warning shown, if
any. -/
def deepStartRequest (w : DeepWin) (inputText : String) (apiKey : Option String)
    (model : Option String) (continueConversation : Bool) : DeepWin × Option String :=
  let currentPrompt := pyTrim inputText
  if currentPrompt = "" ∧ ¬ continueConversation then (w, some "Üres kérés")
  else if apiKey = none then (w, some "Hiányzó API kulcs")
  else if model = none then (w, some "Hiányzó modell")
  else
    let w1 := { w with uiEnabled := false, isGenerating := true }
    let w2 :=
      if ¬ continueConversation then
        { w1 with history := w1.history ++ [userMsg currentPrompt],
                  displayed := w1.displayed ++ userHeader currentPrompt }
      else w1
    ({ w2 with workerId := w2.workerId + 1 }, none)

/-- The expression of `request_completed` line 953:
`self.chat_display.toPlainText().split('Felhasználó:')[-1].strip()`. -/
def lastSegmentAfterMarker (displayed : String) : String :=
  pyTrim ((pySplit displayed "Felhasználó:").getLastD "")

/-- `MainWindow.request_completed` (lines 948-963): flush the remaining
coalescing buffer to the display, then append an assistant message whose
content is the display text after the last `'Felhasználó:'` marker,
stripped — not the stream buffer itself — and re-enable the controls. -/
def deepRequestCompleted (w : DeepWin) : DeepWin :=
  let w1 := deepFlushBuffer w
  let w2 := { w1 with history :=
      w1.history ++ [assistantMsg (lastSegmentAfterMarker w1.displayed)] }
  { w2 with uiEnabled := true, isGenerating := false }

/-- `MainWindow.show_error` (lines 965-973): the history is untouched,
the controls are re-enabled. -/
def deepShowError (w : DeepWin) : DeepWin :=
  { w with uiEnabled := true, isGenerating := false }

/-- State of the `deepsekonemm.py` `MainWindow` as far as the claims are
concerned. -/
structure DsmWin where
  conversationHistory : List Msg
  lastResponse : String
  isContinuation : Bool
  firstMessage : Bool
  responseArea : String
  inputEnabled : Bool
  sendEnabled : Bool
  continueEnabled : Bool
  workerId : Nat
  deriving DecidableEq, Repr

/-- The synthetic continuation instruction of `continue_request`
(line 803). -/
def continuePrompt : String := "Folytasd a választ ott, ahol abbahagytad!"

/-- `MainWindow.send_request` of `deepsekonemm.py` (lines 807-898).  The
guard clauses append a notice to the response area and return; otherwise
the controls are disabled, on the first request the system message is
appended, on a non-continuation the raw input text is appended as a user
message (the user-echo cursor insertions into the response area are
elided), and a fresh `Worker` replaces `self.worker` unconditionally —
again with no check of any in-flight session. -/
def dsmSendRequest (w : DsmWin) (inputText : String) (apiKeyOk : Bool) : DsmWin :=
  if ¬ apiKeyOk then
    { w with responseArea := w.responseArea ++ "Kérlek válassz egy érvényes API kulcsot!" }
  else if pyTrim inputText = "" ∧ ¬ w.isContinuation then
    { w with responseArea := w.responseArea ++ "Kérlek adj meg egy kérdést!" }
  else
    let w1 := { w with inputEnabled := false, sendEnabled := false,
                       continueEnabled := false }
    let w2 :=
      if w1.firstMessage then
        { w1 with conversationHistory := w1.conversationHistory ++ [systemMessage],
                  firstMessage := false }
      else w1
    let w3 :=
      if ¬ w2.isContinuation then
        { w2 with conversationHistory := w2.conversationHistory ++ [userMsg inputText] }
      else w2
    { w3 with workerId := w3.workerId + 1 }

/-- `MainWindow.continue_request` of `deepsekonemm.py` (lines 798-804):
with a nonempty history, set the continuation flag, append the synthetic
user instruction, and delegate to `send_request`. -/
def dsmContinueRequest (w : DsmWin) (inputText : String) (apiKeyOk : Bool) : DsmWin :=
  if w.conversationHistory = [] then w
  else
    dsmSendRequest
      { w with isContinuation := true,
               conversationHistory := w.conversationHistory ++ [userMsg continuePrompt] }
      inputText apiKeyOk

/-- `MainWindow.handle_chunk` (lines 1007-1048): append the chunk to the
response area and to `last_response`. -/
def dsmHandleChunk (w : DsmWin) (chunk : String) : DsmWin :=
  { w with responseArea := w.responseArea ++ chunk,
           lastResponse := w.lastResponse ++ chunk }

/-- `MainWindow.handle_finished` (lines 965-1005): re-enable the
controls, and update the history: a non-continuation appends the
assistant message; a continuation first `pop()`s the trailing synthetic
continuation instruction (modelled by `dropLast`; `pop` on an empty list
would raise, which is unreachable because `continue_request` appended to
a nonempty history) and then appends the assistant message. -/
def dsmHandleFinished (w : DsmWin) (wasTruncated : Bool) : DsmWin :=
  let w1 := { w with inputEnabled := true, sendEnabled := true,
                     continueEnabled := wasTruncated }
  let w2 :=
    if ¬ w1.isContinuation then
      { w1 with conversationHistory :=
          w1.conversationHistory ++ [assistantMsg w1.lastResponse] }
    else
      { w1 with conversationHistory :=
          w1.conversationHistory.dropLast ++ [assistantMsg w1.lastResponse] }
  { w2 with lastResponse := "", isContinuation := false }

/-- `MainWindow.handle_error` (lines 1115-1132): the history is
untouched; the controls are re-enabled, a notice is appended to the
response area and the continuation flag is reset. -/
def dsmHandleError (w : DsmWin) (msg : String) : DsmWin :=
  { w with inputEnabled := true, sendEnabled := true,
           responseArea := w.responseArea ++ "[HIBA: " ++ msg ++ "]",
           isContinuation := false }

/-! ## Concrete inputs used by the claims -/

/-- The first stream line of claim C2. -/
def c2line1 : String :=
  "data: \x7b\"choices\":[\x7b\"delta\":\x7b\"content\":\"a\"\x7d,\"finish_reason\":null\x7d]\x7d"

/-- The second stream line of claim C2. -/
def c2line2 : String :=
  "data: \x7b\"choices\":[\x7b\"delta\":\x7b\x7d,\"finish_reason\":\"length\"\x7d]\x7d"

/-- The error body of claim C3. -/
def c3Body : String := "\x7b\"error\":\x7b\"message\":\"rate limited\"\x7d\x7d"

/-- A `data:` line whose payload fails JSON decoding (claim C5). -/
def c5BadLine : String := "data: \x7bnot json\x7d"

/-- The scanner input of claim C7 (the fence is not at a line start). -/
def c7Input : String := "intro ```python\nprint(1)\n``` outro"

/-- A `deep.py` window state with a streaming session in flight
(claim C4). -/
def busyWin : DeepWin :=
  { history := [userMsg "q"], displayed := userHeader "q", bufferedText := ""
    isGenerating := true, uiEnabled := false, workerId := 5 }

/-- A fresh `deep.py` window (claim C8). -/
def c8Start : DeepWin :=
  { history := [], displayed := "", bufferedText := "", isGenerating := false
    uiEnabled := true, workerId := 0 }

/-- A `deepsekonemm.py` window right after a request was sent
(claim C8 witness). -/
def c8DsmStart : DsmWin :=
  { conversationHistory := [systemMessage, userMsg "hi"], lastResponse := ""
    isContinuation := false, firstMessage := false, responseArea := ""
    inputEnabled := false, sendEnabled := false, continueEnabled := false
    workerId := 1 }

/-- An idle `deepsekonemm.py` window with a two-turn history (claim C9). -/
def c9Start : DsmWin :=
  { conversationHistory := [userMsg "q", assistantMsg "a1"], lastResponse := ""
    isContinuation := false, firstMessage := false, responseArea := ""
    inputEnabled := true, sendEnabled := true, continueEnabled := true
    workerId := 0 }

/-! ## Helper lemmas -/

theorem strAppendEmpty (s : String) : s ++ "" = s := by
  cases s with
  | mk l => exact congrArg String.mk (List.append_nil l)

theorem strEmptyAppend (s : String) : "" ++ s = s := rfl

theorem strAppendAssoc (a b c : String) : a ++ b ++ c = a ++ (b ++ c) := by
  cases a with
  | mk la =>
    cases b with
    | mk lb =>
      cases c with
      | mk lc => exact congrArg String.mk (List.append_assoc la lb lc)

theorem concatAll_append (a b : List String) :
    concatAll (a ++ b) = concatAll a ++ concatAll b := by
  induction a with
  | nil => simp [concatAll]
  | cons s rest ih =>
    show s ++ concatAll (rest ++ b) = s ++ concatAll rest ++ concatAll b
    rw [ih, strAppendAssoc]

theorem updatesOf_append (a b : List DeepEv) :
    updatesOf (a ++ b) = updatesOf a ++ updatesOf b := by
  induction a with
  | nil => rfl
  | cons e rest ih =>
    cases e <;> simp [updatesOf, ih]

theorem chunksOf_append (a b : List DsmEv) :
    chunksOf (a ++ b) = chunksOf a ++ chunksOf b := by
  induction a with
  | nil => rfl
  | cons e rest ih =>
    cases e <;> simp [chunksOf, ih]

theorem deepLineStep_fst (b l : String) :
    (deepLineStep b l).1 = b ∨ (deepLineStep b l).1 = "" := by
  unfold deepLineStep
  repeat' first
    | exact Or.inl rfl
    | exact Or.inr rfl
    | split

theorem deepLineStep_no_completed (b l : String) :
    DeepEv.completed ∉ (deepLineStep b l).2 := by
  unfold deepLineStep
  repeat' first
    | (simp; done)
    | split

theorem dsmLineStep_ok_evs (st : DsmSt) (l : String) (st' : DsmSt) (evs : List DsmEv)
    (h : dsmLineStep st l = DsmStepRes.ok st' evs) :
    evs = [] ∨ ∃ t, evs = [DsmEv.chunk t] := by
  unfold dsmLineStep at h
  repeat' split at h
  all_goals first
    | (injection h with h1 h2; subst h2; simp)
    | (cases h)

theorem deepLineStep_wf (l : String) (c : Option String)
    (h : (deepDecodeLine l).bind contentOf = some c) :
    (deepLineStep "" l).1 = "" ∧ updatesOf (deepLineStep "" l).2 = [c.getD ""] := by
  cases hd : deepDecodeLine l with
  | none => rw [hd] at h; simp at h
  | some j =>
    rw [hd] at h
    rw [Option.some_bind] at h
    unfold deepLineStep
    rw [hd]
    cases j with
    | obj fs =>
      simp only [contentOf] at h
      cases hch : objGet fs "choices" with
      | none =>
        rw [hch] at h
        simp only [Option.some.injEq] at h
        subst h
        simp [objGetD, hch, truthy, objGet, updatesOf, isStrEq]
      | some v =>
        rw [hch] at h
        cases v with
        | arr xs =>
          cases xs with
          | nil => simp at h
          | cons x rest =>
            cases x with
            | obj cfs =>
              simp only [] at h
              cases hdl : objGet cfs "delta" with
              | none =>
                rw [hdl] at h
                simp only [Option.some.injEq] at h
                subst h
                simp only [objGetD, hch, hdl, Option.getD, truthy, List.isEmpty]
                refine ⟨by split <;> rfl, ?_⟩
                repeat' first
                  | (simp_all [updatesOf, strEmptyAppend, objGet, Option.getD]; done)
                  | split
              | some d =>
                rw [hdl] at h
                cases d with
                | obj dfs =>
                  simp only [] at h
                  cases hcon : objGet dfs "content" with
                  | none =>
                    rw [hcon] at h
                    simp only [Option.some.injEq] at h
                    subst h
                    simp only [objGetD, hch, hdl, hcon, Option.getD, truthy, List.isEmpty]
                    refine ⟨by split <;> rfl, ?_⟩
                    repeat' first
                      | (simp_all [updatesOf, strEmptyAppend, objGet, Option.getD]; done)
                      | split
                  | some cv =>
                    rw [hcon] at h
                    cases cv with
                    | str s =>
                      simp only [Option.some.injEq] at h
                      subst h
                      simp only [objGetD, hch, hdl, hcon, Option.getD, truthy, List.isEmpty]
                      refine ⟨by split <;> rfl, ?_⟩
                      repeat' first
                        | (simp_all [updatesOf, strEmptyAppend, objGet, Option.getD]; done)
                        | split
                    | null => simp at h
                    | bool b => simp at h
                    | num q => simp at h
                    | arr q => simp at h
                    | obj q => simp at h
                | null => simp at h
                | bool b => simp at h
                | num q => simp at h
                | str q => simp at h
                | arr q => simp at h
            | null => simp at h
            | bool b => simp at h
            | num q => simp at h
            | str q => simp at h
            | arr q => simp at h
        | null => simp at h
        | bool b => simp at h
        | num q => simp at h
        | str q => simp at h
        | obj q => simp at h
    | null => simp [contentOf] at h
    | bool b => simp [contentOf] at h
    | num q => simp [contentOf] at h
    | str q => simp [contentOf] at h
    | arr q => simp [contentOf] at h

theorem hasKey_false_of_objGet_none :
    ∀ (fs : List (String × JVal)) (k : String), objGet fs k = none → hasKey fs k = false
  | [], _, _ => rfl
  | (k', v) :: rest, k, h => by
      simp only [objGet] at h
      split at h
      · cases h
      · rename_i hne
        have hr := hasKey_false_of_objGet_none rest k h
        simp only [hasKey, List.any_cons] at hr ⊢
        simp [hne, hr]

theorem hasKey_true_of_objGet_some :
    ∀ (fs : List (String × JVal)) (k : String) (v : JVal),
      objGet fs k = some v → hasKey fs k = true
  | [], _, _, h => by cases h
  | (k', v') :: rest, k, v, h => by
      simp only [objGet] at h
      split at h
      · rename_i he
        simp [hasKey, List.any_cons, he]
      · rename_i hne
        have hr := hasKey_true_of_objGet_some rest k v h
        simp only [hasKey, List.any_cons] at hr ⊢
        simp [hr]

theorem dsmDecode_of_deep (l : String) (j : JVal)
    (hsw : strStartsWith l "data:" = true) (hd : deepDecodeLine l = some j) :
    dsmDecodeLine l = some j := by
  by_cases h0 : l = ""
  · subst h0
    exact absurd hsw (by decide)
  · unfold deepDecodeLine at hd
    unfold dsmDecodeLine
    rw [if_neg h0] at hd
    rw [if_neg h0, if_pos hsw]
    rw [show deepStripData l = pyTrim (strDrop l 5) from by
      unfold deepStripData; rw [if_pos hsw]] at hd
    split at hd
    · cases hd
    · split at hd
      · cases hd
      · exact hd

theorem dsmLineStep_wf (st : DsmSt) (l : String) (c : Option String)
    (hsw : strStartsWith l "data:" = true)
    (h : (deepDecodeLine l).bind contentOf = some c) :
    ∃ st' evs, dsmLineStep st l = DsmStepRes.ok st' evs ∧
      st'.fullResponse = st.fullResponse ++ c.getD "" ∧
      concatAll (chunksOf evs) ++ st'.buffer = st.buffer ++ c.getD "" := by
  cases hd : deepDecodeLine l with
  | none => rw [hd] at h; simp at h
  | some j =>
    have hdsm := dsmDecode_of_deep l j hsw hd
    rw [hd] at h
    rw [Option.some_bind] at h
    unfold dsmLineStep
    rw [hdsm]
    cases j with
    | obj fs =>
      simp only [contentOf] at h
      cases hch : objGet fs "choices" with
      | none =>
        rw [hch] at h
        simp only [Option.some.injEq] at h
        subst h
        have hk := hasKey_false_of_objGet_none fs "choices" hch
        simp only [pyInStr, hk]
        exact ⟨st, [], rfl, by simp [strAppendEmpty],
          by simp [concatAll, chunksOf, strAppendEmpty]⟩
      | some v =>
        have hk := hasKey_true_of_objGet_some fs "choices" v hch
        rw [hch] at h
        cases v with
        | arr xs =>
          cases xs with
          | nil => simp at h
          | cons x rest =>
            cases x with
            | obj cfs =>
              simp only [] at h
              simp only [pyInStr, hk, hch]
              cases hdl : objGet cfs "delta" with
              | none =>
                rw [hdl] at h
                simp only [Option.some.injEq] at h
                subst h
                dsimp only
                refine ⟨_, [], rfl, by simp [strAppendEmpty],
                  by simp [concatAll, chunksOf, strAppendEmpty]⟩
              | some d =>
                rw [hdl] at h
                cases d with
                | obj dfs =>
                  simp only [] at h
                  dsimp only
                  cases dfs with
                  | nil =>
                    simp only [objGet] at h
                    simp only [Option.some.injEq] at h
                    subst h
                    split
                    · rename_i htr
                      simp [truthy] at htr
                    · refine ⟨_, [], rfl, by simp [strAppendEmpty],
                        by simp [concatAll, chunksOf, strAppendEmpty]⟩
                  | cons p ps =>
                    split
                    · cases hcon : objGet (p :: ps) "content" with
                      | none =>
                        rw [hcon] at h
                        simp only [Option.some.injEq] at h
                        subst h
                        have hkc := hasKey_false_of_objGet_none (p :: ps) "content" hcon
                        rw [hkc]
                        dsimp only
                        refine ⟨_, [], rfl, by simp [strAppendEmpty],
                          by simp [concatAll, chunksOf, strAppendEmpty]⟩
                      | some cv =>
                        rw [hcon] at h
                        cases cv with
                        | str s =>
                          simp only [Option.some.injEq] at h
                          subst h
                          have hkc := hasKey_true_of_objGet_some (p :: ps) "content" _ hcon
                          rw [hkc]
                          dsimp only
                          split
                          · refine ⟨_, _, rfl, by simp, ?_⟩
                            simp [concatAll, chunksOf, strAppendEmpty]
                          · refine ⟨_, _, rfl, by simp, ?_⟩
                            simp [concatAll, chunksOf, strEmptyAppend]
                        | null => simp at h
                        | bool b => simp at h
                        | num q => simp at h
                        | arr q => simp at h
                        | obj q => simp at h
                    · rename_i htr
                      simp [truthy] at htr
                | null => simp at h
                | bool b => simp at h
                | num q => simp at h
                | str q => simp at h
                | arr q => simp at h
            | null => simp at h
            | bool b => simp at h
            | num q => simp at h
            | str q => simp at h
            | arr q => simp at h
        | null => simp at h
        | bool b => simp at h
        | num q => simp at h
        | str q => simp at h
        | obj q => simp at h
    | null => simp [contentOf] at h
    | bool b => simp [contentOf] at h
    | num q => simp [contentOf] at h
    | str q => simp [contentOf] at h
    | arr q => simp [contentOf] at h

theorem deepGo_cons_none (b l : String) (ls : List String) :
    deepGo none b (l :: ls) =
      (deepLineStep b l).2 ++ deepGo none (deepLineStep b l).1 ls := by
  simp [deepGo, decrCancel]

theorem dsmGoFull_cons_ok (st st' : DsmSt) (evs : List DsmEv) (l : String)
    (ls : List String) (h : dsmLineStep st l = DsmStepRes.ok st' evs) :
    dsmGoFull none st (l :: ls) =
      ((dsmGoFull none st' ls).1, evs ++ (dsmGoFull none st' ls).2) := by
  simp [dsmGoFull, decrCancel, h]

theorem deep_go_wf : ∀ (ls : List String) (cs : List (Option String)),
    wfLinesB ls cs = true →
    updatesOf (deepGo none "" ls) = cs.map (fun c => c.getD "")
  | [], [], _ => by simp [deepGo, updatesOf]
  | [], _ :: _, h => by simp [wfLinesB] at h
  | _ :: _, [], h => by simp [wfLinesB] at h
  | l :: ls, c :: cs, h => by
      simp only [wfLinesB, Bool.and_eq_true] at h
      obtain ⟨h1, h2⟩ := h
      simp only [wfLineB, Bool.and_eq_true, decide_eq_true_eq] at h1
      obtain ⟨hsw, hbind⟩ := h1
      have hstep := deepLineStep_wf l c hbind
      rw [deepGo_cons_none, updatesOf_append, hstep.1, hstep.2,
        deep_go_wf ls cs h2]
      simp

theorem dsm_go_wf : ∀ (ls : List String) (cs : List (Option String)) (st : DsmSt),
    wfLinesB ls cs = true →
    concatAll (chunksOf (dsmGoFull none st ls).2) =
      st.buffer ++ concatAll (cs.map (fun c => c.getD "")) ∧
    (dsmGoFull none st ls).1.fullResponse =
      st.fullResponse ++ concatAll (cs.map (fun c => c.getD ""))
  | [], [], st, _ => by
      refine ⟨?_, by simp [dsmGoFull, concatAll, strAppendEmpty]⟩
      simp only [dsmGoFull]
      rw [chunksOf_append, chunksOf_append]
      by_cases hb : st.buffer = ""
      · simp only [hb]
        simp [chunksOf, concatAll]
        split <;> simp [chunksOf, concatAll]
      · simp only [hb]
        simp [chunksOf, concatAll, strAppendEmpty]
        split <;> simp [chunksOf, concatAll, strAppendEmpty]
  | [], _ :: _, _, h => by simp [wfLinesB] at h
  | _ :: _, [], _, h => by simp [wfLinesB] at h
  | l :: ls, c :: cs, st, h => by
      simp only [wfLinesB, Bool.and_eq_true] at h
      obtain ⟨h1, h2⟩ := h
      simp only [wfLineB, Bool.and_eq_true, decide_eq_true_eq] at h1
      obtain ⟨hsw, hbind⟩ := h1
      obtain ⟨st', evs, hstep, hfull, hbuf⟩ := dsmLineStep_wf st l c hsw hbind
      have ih := dsm_go_wf ls cs st' h2
      rw [dsmGoFull_cons_ok st st' evs l ls hstep]
      constructor
      · show concatAll (chunksOf (evs ++ (dsmGoFull none st' ls).2)) = _
        rw [chunksOf_append, concatAll_append, ih.1, ← strAppendAssoc, hbuf,
          strAppendAssoc]
        simp [concatAll]
      · show (dsmGoFull none st' ls).1.fullResponse = _
        rw [ih.2, hfull, strAppendAssoc]
        simp [concatAll]

/-! ## Claim theorems -/

/-- C1: for every well-formed sequence of `data:`-prefixed stream lines,
however the content fields are split across lines, the concatenation of
all content-fragment texts emitted by the stream worker (including the
final flush after the loop) equals the concatenation of the original
`content` fields of the decoded payloads — in `deep.py`, where the
emitted texts are the `update_received` payloads, in `deepsekonemm.py`,
where they are the `chunk_received` payloads, and also for the
accumulated `full_response` of the latter. -/
theorem c1_stream_concat (ls : List String) (cs : List (Option String))
    (h : wfLinesB ls cs = true) :
    concatAll (updatesOf (deepWorkerEvents ls none)) =
      concatAll (cs.map (fun c => c.getD "")) ∧
    concatAll (chunksOf (dsmStreamEvents ls none)) =
      concatAll (cs.map (fun c => c.getD "")) ∧
    (dsmStreamState ls none).fullResponse =
      concatAll (cs.map (fun c => c.getD "")) := by
  refine ⟨?_, ?_, ?_⟩
  · unfold deepWorkerEvents
    rw [deep_go_wf ls cs h]
  · unfold dsmStreamEvents dsmGo
    rw [(dsm_go_wf ls cs dsmInit h).1]
    rfl
  · unfold dsmStreamState
    rw [(dsm_go_wf ls cs dsmInit h).2]
    rfl

/-- Witness for C1 at the two concrete lines of claim C2: the first
carries content `"a"`, the second carries none. -/
theorem c1_stream_concat_witness :
    wfLinesB [c2line1, c2line2] [some "a", none] = true ∧
    concatAll (updatesOf (deepWorkerEvents [c2line1, c2line2] none)) =
      concatAll ([some "a", none].map (fun c => c.getD "")) :=
  ⟨by decide, (c1_stream_concat [c2line1, c2line2] [some "a", none] (by decide)).1⟩

/-- C2: a session that receives exactly the line
`data: {"choices":[{"delta":{"content":"a"},"finish_reason":null}]}`
followed by `data: {"choices":[{"delta":{},"finish_reason":"length"}]}`
raises the truncated notification and accumulates exactly `"a"`: the
`deep.py` worker emits `update_received("a")`, `update_received("")`,
`truncated` and `response_completed`, and the `deepsekonemm.py` worker
ends with `full_response = "a"`, `was_truncated` set, and the signal
sequence `chunk_received("a")`, `truncated`, `finished`. -/
theorem c2_truncated_session :
    deepWorkerEvents [c2line1, c2line2] none =
      [DeepEv.update "a", DeepEv.update "", DeepEv.truncatedSig, DeepEv.completed] ∧
    concatAll (updatesOf (deepWorkerEvents [c2line1, c2line2] none)) = "a" ∧
    dsmStreamEvents [c2line1, c2line2] none =
      [DsmEv.chunk "a", DsmEv.truncatedSig, DsmEv.finishedSig] ∧
    (dsmStreamState [c2line1, c2line2] none).fullResponse = "a" ∧
    (dsmStreamState [c2line1, c2line2] none).wasTruncated = true := by
  refine ⟨by decide, by decide, by decide, by decide, by decide⟩

/-- C3 (code bug): on an initial 429 response whose body is
`{"error":{"message":"rate limited"}}`, `AIWorker.run` parses the body
message `"rate limited"` into its local variable `error`
(`deepParsedErrorMessage`) but then emits `error_occurred(str(e), 429)`,
whose message comes from the `HTTPError` alone (`reqHttpErrorStr`) and is
not `"rate limited"`; no content delta is emitted and the streaming loop
is never entered.  The `deepsekonemm.py` worker never parses the body at
all: on 429 it emits its fixed rate-limit message and retries after a
60-second sleep instead of failing. -/
theorem c3_error_message_eval :
    deepRun 429 c3Body [] none = [DeepEv.errorEv "429 Client Error" 429] ∧
    deepParsedErrorMessage c3Body = JVal.str "rate limited" ∧
    reqHttpErrorStr 429 ≠ "rate limited" ∧
    updatesOf (deepRun 429 c3Body [] none) = [] ∧
    dsmRun [Attempt.http 429 []] =
      [DsmEv.errorEv "Túl sok kérés. Várj 60 másodpercet..." 429, DsmEv.sleepEv 60] := by
  refine ⟨by decide, by rfl, by decide, by decide, by decide⟩

/-- C7 counterexample: on the input
`"intro ```python\nprint(1)\n``` outro"`, whose opening fence is not at a
line start, the `deep.py` scanner — whose regex anchors the fence with
`^...$` under `re.MULTILINE` — yields no block at all, not exactly one. -/
theorem c7_deep_scanner_counterexample :
    deepExtractBlocks c7Input = [] := by decide

/-- C7 amended: on that input the `deepsekonemm.py` scanner yields
exactly one block, language `"python"` and code `"print(1)"`, while the
`deep.py` scanner yields none. -/
theorem c7_scanner_amended :
    dsmExtractBlocks c7Input = [("python", "print(1)")] ∧
    deepExtractBlocks c7Input = [] := by
  refine ⟨by decide, by decide⟩

theorem deepDecodeLine_none_of_parse (bad : String)
    (h : parseJson (deepStripData bad) = none) : deepDecodeLine bad = none := by
  unfold deepDecodeLine
  split
  · rfl
  · split
    · rfl
    · split
      · rfl
      · exact h

theorem dsmDecodeLine_none_of_parse (bad : String)
    (h : parseJson (deepStripData bad) = none) : dsmDecodeLine bad = none := by
  unfold dsmDecodeLine
  split
  · rfl
  · split
    · rename_i hne hsw
      rw [show pyTrim (strDrop bad 5) = deepStripData bad from by
        unfold deepStripData; rw [if_pos hsw]]
      exact h
    · rfl

theorem deepLineStep_skip (b bad : String)
    (h : parseJson (deepStripData bad) = none) : deepLineStep b bad = (b, []) := by
  unfold deepLineStep
  rw [deepDecodeLine_none_of_parse bad h]

theorem dsmLineStep_skip (st : DsmSt) (bad : String)
    (h : parseJson (deepStripData bad) = none) :
    dsmLineStep st bad = DsmStepRes.ok st [] := by
  unfold dsmLineStep
  rw [dsmDecodeLine_none_of_parse bad h]

/-- C5: a line whose payload fails JSON decoding is skipped by both
stream workers: the run over any surrounding lines is unchanged — the
decode error does not terminate the stream, raises nothing, and content
deltas from the later lines are still emitted. -/
theorem c5_decode_error_skipped (bad : String)
    (h : parseJson (deepStripData bad) = none) :
    (∀ (pre post : List String) (b : String),
       deepGo none b (pre ++ bad :: post) = deepGo none b (pre ++ post)) ∧
    (∀ (pre post : List String) (st : DsmSt),
       dsmGoFull none st (pre ++ bad :: post) = dsmGoFull none st (pre ++ post)) := by
  constructor
  · intro pre post
    induction pre with
    | nil =>
      intro b
      rw [List.nil_append, List.nil_append, deepGo_cons_none, deepLineStep_skip b bad h]
      simp
    | cons p pre ih =>
      intro b
      rw [List.cons_append, List.cons_append, deepGo_cons_none, deepGo_cons_none, ih]
  · intro pre post
    induction pre with
    | nil =>
      intro st
      rw [List.nil_append, List.nil_append,
        dsmGoFull_cons_ok st st [] bad post (dsmLineStep_skip st bad h)]
      simp
    | cons p pre ih =>
      intro st
      rw [List.cons_append, List.cons_append]
      cases hs : dsmLineStep st p with
      | ok st' evs =>
        rw [dsmGoFull_cons_ok st st' evs p _ hs, dsmGoFull_cons_ok st st' evs p _ hs,
          ih st']
      | exc => simp [dsmGoFull, decrCancel, hs]

/-- Witness for C5: a `data:` line with an undecodable payload between
the two well-formed lines of claim C2 leaves the `deep.py` run
unchanged. -/
theorem c5_decode_error_skipped_witness :
    parseJson (deepStripData c5BadLine) = none ∧
    deepGo none "" ([c2line1] ++ c5BadLine :: [c2line2]) =
      deepGo none "" ([c2line1] ++ [c2line2]) :=
  ⟨by rfl, (c5_decode_error_skipped c5BadLine (by rfl)).1 [c2line1] [c2line2] ""⟩

theorem deep_cancel_take : ∀ (ls : List String) (k : Nat),
    updatesOf (deepGo (some k) "" ls) = updatesOf (deepGo none "" (ls.take k))
  | [], k => by simp [deepGo]
  | l :: ls, 0 => by simp [deepGo, updatesOf]
  | l :: ls, Nat.succ k => by
      have hb : (deepLineStep "" l).1 = "" := by
        rcases deepLineStep_fst "" l with h | h <;> exact h
      rw [show deepGo (some (k + 1)) "" (l :: ls) =
            (deepLineStep "" l).2 ++ deepGo (some k) "" ls from by
          simp [deepGo, decrCancel, hb]]
      rw [List.take_succ_cons, deepGo_cons_none, hb]
      rw [updatesOf_append, updatesOf_append, deep_cancel_take ls k]

theorem deep_cancel_no_completed : ∀ (ls : List String) (k : Nat) (b : String),
    k < ls.length → DeepEv.completed ∉ deepGo (some k) b ls
  | [], k, b, h => by simp at h
  | l :: ls, 0, b, _ => by simp [deepGo]
  | l :: ls, Nat.succ k, b, h => by
      rw [show deepGo (some (k + 1)) b (l :: ls) =
            (deepLineStep b l).2 ++ deepGo (some k) (deepLineStep b l).1 ls from by
          simp [deepGo, decrCancel]]
      rw [List.mem_append]
      push_neg
      exact ⟨deepLineStep_no_completed b l,
        deep_cancel_no_completed ls k (deepLineStep b l).1 (Nat.lt_of_succ_lt_succ h)⟩

theorem prefix_append_both (c a b : List String) (h : a <+: b) :
    c ++ a <+: c ++ b := by
  obtain ⟨t, ht⟩ := h
  exact ⟨t, by rw [List.append_assoc, ht]⟩

theorem dsm_cancel_front : ∀ (ls : List String) (k : Nat) (st : DsmSt),
    chunksOf (dsmGoFull (some k) st ls).2 <+: chunksOf (dsmGoFull none st (ls.take k)).2
  | [], k, st => ⟨[], by rw [List.append_nil, List.take_nil]; simp [dsmGoFull]⟩
  | l :: ls, 0, st => by
      simp [dsmGoFull, chunksOf]
  | l :: ls, Nat.succ k, st => by
      rw [List.take_succ_cons]
      cases hs : dsmLineStep st l with
      | ok st' evs =>
        rw [show dsmGoFull (some (k + 1)) st (l :: ls) =
              ((dsmGoFull (some k) st' ls).1, evs ++ (dsmGoFull (some k) st' ls).2) from by
            simp [dsmGoFull, decrCancel, hs]]
        rw [dsmGoFull_cons_ok st st' evs l _ hs]
        rw [chunksOf_append, chunksOf_append]
        exact prefix_append_both _ _ _ (dsm_cancel_front ls k st')
      | exc =>
        rw [show dsmGoFull (some (k + 1)) st (l :: ls) =
              (st, [DsmEv.errorEv "Hiba: exception" 500, DsmEv.interruptedSig]) from by
            simp [dsmGoFull, decrCancel, hs]]
        rw [show dsmGoFull none st (l :: ls.take k) =
              (st, [DsmEv.errorEv "Hiba: exception" 500, DsmEv.interruptedSig]) from by
            simp [dsmGoFull, decrCancel, hs]]

theorem dsm_cancel_no_finished : ∀ (ls : List String) (k : Nat) (st : DsmSt),
    k < ls.length → DsmEv.finishedSig ∉ (dsmGoFull (some k) st ls).2
  | [], k, st, h => by simp at h
  | l :: ls, 0, st, _ => by simp [dsmGoFull]
  | l :: ls, Nat.succ k, st, h => by
      cases hs : dsmLineStep st l with
      | ok st' evs =>
        rw [show dsmGoFull (some (k + 1)) st (l :: ls) =
              ((dsmGoFull (some k) st' ls).1, evs ++ (dsmGoFull (some k) st' ls).2) from by
            simp [dsmGoFull, decrCancel, hs]]
        rw [List.mem_append]
        push_neg
        refine ⟨?_, dsm_cancel_no_finished ls k st' (Nat.lt_of_succ_lt_succ h)⟩
        rcases dsmLineStep_ok_evs st l st' evs hs with he | ⟨t, he⟩ <;> subst he <;> simp
      | exc =>
        rw [show dsmGoFull (some (k + 1)) st (l :: ls) =
              (st, [DsmEv.errorEv "Hiba: exception" 500, DsmEv.interruptedSig]) from by
            simp [dsmGoFull, decrCancel, hs]]
        simp

/-- C6: once the worker's running flag is false (cancellation at line
boundary `k`), the read loop exits at that boundary: the `deep.py`
worker's emitted texts are exactly those of an uncancelled run over the
first `k` lines, and no completion signal is ever emitted; the
`deepsekonemm.py` worker's flushed chunks are a prefix of those of an
uncancelled run over the first `k` lines (the already-flushed text is
retained verbatim, only the not-yet-flushed coalescing buffer is
dropped) and no finished signal is emitted; and a display flush only
appends to the display text, never discarding flushed text. -/
theorem c6_cancellation :
    (∀ (ls : List String) (k : Nat),
       updatesOf (deepWorkerEvents ls (some k)) =
         updatesOf (deepWorkerEvents (ls.take k) none)) ∧
    (∀ (ls : List String) (k : Nat), k < ls.length →
       DeepEv.completed ∉ deepWorkerEvents ls (some k)) ∧
    (∀ (ls : List String) (k : Nat) (st : DsmSt),
       chunksOf (dsmGoFull (some k) st ls).2 <+:
         chunksOf (dsmGoFull none st (ls.take k)).2) ∧
    (∀ (ls : List String) (k : Nat) (st : DsmSt), k < ls.length →
       DsmEv.finishedSig ∉ (dsmGoFull (some k) st ls).2) ∧
    (∀ w : DeepWin, (deepFlushBuffer w).displayed = w.displayed ++ w.bufferedText) := by
  refine ⟨fun ls k => deep_cancel_take ls k,
    fun ls k h => deep_cancel_no_completed ls k "" h,
    fun ls k st => dsm_cancel_front ls k st,
    fun ls k st h => dsm_cancel_no_finished ls k st h, fun w => ?_⟩
  unfold deepFlushBuffer
  split
  · rfl
  · rename_i hb
    have hempty : w.bufferedText = "" := by
      by_contra hne
      exact hb (by simp [hne])
    rw [hempty, strAppendEmpty]

/-- Witness for C6: cancelling after the first of the two lines of claim
C2 suppresses the completion signal. -/
theorem c6_cancellation_witness :
    1 < 2 ∧ DeepEv.completed ∉ deepWorkerEvents [c2line1, c2line2] (some 1) :=
  ⟨by decide, c6_cancellation.2.1 [c2line1, c2line2] 1 (by decide)⟩

/-- C4 counterexample: with a session already streaming
(`busyWin.isGenerating = true`), `start_request` on a new valid prompt
does not fail — no warning (and in particular no `SessionBusy` error) is
produced — and the in-flight session's state is not left unchanged: the
worker reference is replaced and the history is mutated. -/
theorem c4_busy_start_counterexample :
    busyWin.isGenerating = true ∧
    (deepStartRequest busyWin "new question" (some "key") (some "model") false).2 = none ∧
    (deepStartRequest busyWin "new question" (some "key") (some "model") false).1.workerId = 6 ∧
    (deepStartRequest busyWin "new question" (some "key") (some "model") false).1.history =
      [userMsg "q", userMsg "new question"] ∧
    (deepStartRequest busyWin "new question" (some "key") (some "model") false).1.history ≠
      busyWin.history := by
  refine ⟨by decide, by decide, by decide, by decide, by decide⟩

/-- C4 amended: neither controller checks for an in-flight session.
`deep.py`'s `start_request` with a nonempty prompt, key and model
succeeds for every window state — whatever `is_generating` is — appending
the user message, echoing it to the display and replacing the worker;
the only guard is UI-level: the controls are disabled while generating
and re-enabled by `request_completed` / `show_error`.  Likewise
`deepsekonemm.py`'s `send_request` replaces the worker and disables the
send button with no busy check. -/
theorem c4_start_no_busy_check :
    (∀ (w : DeepWin) (prompt key model : String), pyTrim prompt ≠ "" →
       deepStartRequest w prompt (some key) (some model) false =
         ({ w with uiEnabled := false, isGenerating := true,
                   history := w.history ++ [userMsg (pyTrim prompt)],
                   displayed := w.displayed ++ userHeader (pyTrim prompt),
                   workerId := w.workerId + 1 }, none)) ∧
    (∀ w : DeepWin, (deepRequestCompleted w).uiEnabled = true) ∧
    (∀ w : DeepWin, (deepShowError w).uiEnabled = true) ∧
    (∀ (w : DsmWin) (i : String), ¬ (pyTrim i = "" ∧ ¬ w.isContinuation = true) →
       (dsmSendRequest w i true).workerId = w.workerId + 1 ∧
       (dsmSendRequest w i true).sendEnabled = false) := by
  refine ⟨?_, fun w => by simp [deepRequestCompleted], fun w => rfl, ?_⟩
  · intro w prompt key model hp
    unfold deepStartRequest
    rw [if_neg (by intro hc; exact hp hc.1)]
    rw [if_neg (by simp)]
    rw [if_neg (by simp)]
    simp
  · intro w i hi
    unfold dsmSendRequest
    rw [if_neg (by simp)]
    rw [if_neg hi]
    dsimp only
    constructor
    · split <;> split <;> rfl
    · split <;> split <;> rfl

/-- Witness for C4's amended theorem at the busy window of the
counterexample. -/
theorem c4_start_no_busy_check_witness :
    pyTrim "new question" ≠ "" ∧
    (deepStartRequest busyWin "new question" (some "k") (some "m") false).2 = none :=
  ⟨by decide, by
    rw [c4_start_no_busy_check.1 busyWin "new question" "k" "m" (by decide)]⟩

theorem dsm_chunk_fold : ∀ (chunks : List String) (w : DsmWin),
    (chunks.foldl dsmHandleChunk w).lastResponse = w.lastResponse ++ concatAll chunks ∧
    (chunks.foldl dsmHandleChunk w).conversationHistory = w.conversationHistory ∧
    (chunks.foldl dsmHandleChunk w).isContinuation = w.isContinuation
  | [], w => ⟨(strAppendEmpty _).symm, rfl, rfl⟩
  | c :: cs, w => by
      have ih := dsm_chunk_fold cs (dsmHandleChunk w c)
      simp only [List.foldl_cons]
      refine ⟨?_, ih.2.1, ih.2.2⟩
      rw [ih.1]
      show (dsmHandleChunk w c).lastResponse ++ concatAll cs = _
      simp only [dsmHandleChunk, concatAll]
      rw [strAppendAssoc]

/-- C8 counterexample: after a `deep.py` session with prompt `"hi"` and a
single streamed delta `"ok"`, the content of the appended assistant
message is the display text after the last `'Felhasználó:'` marker —
`"** hi\n\n\n***\nok"`, which carries the prompt markup — and not the
response buffer `"ok"`. -/
theorem c8_deep_history_counterexample :
    (deepRequestCompleted (deepHandleUpdate
        (deepStartRequest c8Start "hi" (some "k") (some "m") false).1 "ok")).history =
      [userMsg "hi", assistantMsg "** hi\n\n\n***\nok"] ∧
    concatAll ["ok"] = "ok" ∧
    ("** hi\n\n\n***\nok" : String) ≠ "ok" := by
  refine ⟨by decide, by decide, by decide⟩

/-- C8 amended: in `deepsekonemm.py` the final response buffer
(`last_response`, the concatenation of all received chunks) does become,
verbatim, the content of the appended assistant message; in `deep.py` the
appended content is instead derived from the display text
(`lastSegmentAfterMarker`), as the counterexample shows. -/
theorem c8_dsm_verbatim (w : DsmWin) (chunks : List String) (t : Bool)
    (hc : w.isContinuation = false) (hr : w.lastResponse = "") :
    (dsmHandleFinished (chunks.foldl dsmHandleChunk w) t).conversationHistory =
      w.conversationHistory ++ [assistantMsg (concatAll chunks)] := by
  have hf := dsm_chunk_fold chunks w
  simp [dsmHandleFinished, hf.1, hf.2.1, hf.2.2, hc, hr]

/-- Witness for C8's amended theorem: two chunks `"o"`, `"k"` end as the
assistant message `"ok"`. -/
theorem c8_dsm_verbatim_witness :
    c8DsmStart.isContinuation = false ∧ c8DsmStart.lastResponse = "" ∧
    (dsmHandleFinished (["o", "k"].foldl dsmHandleChunk c8DsmStart) false).conversationHistory =
      c8DsmStart.conversationHistory ++ [assistantMsg (concatAll ["o", "k"])] :=
  ⟨by decide, by decide, c8_dsm_verbatim c8DsmStart ["o", "k"] false (by decide) (by decide)⟩

/-- C9 counterexample: completing a continuation is not an append.  From
the history `[user "q", assistant "a1"]`, `continue_request` appends the
synthetic instruction, but `handle_finished` then `pop()`s it: the
earlier history is not a prefix of the later one — the entry at index 2
was removed and replaced. -/
theorem c9_pop_counterexample :
    (dsmContinueRequest c9Start "" true).conversationHistory =
      [userMsg "q", assistantMsg "a1", userMsg continuePrompt] ∧
    (dsmHandleFinished
        (dsmHandleChunk (dsmContinueRequest c9Start "" true) "a2") false).conversationHistory =
      [userMsg "q", assistantMsg "a1", assistantMsg "a2"] ∧
    List.isPrefixOf (dsmContinueRequest c9Start "" true).conversationHistory
      (dsmHandleFinished
        (dsmHandleChunk (dsmContinueRequest c9Start "" true) "a2") false).conversationHistory
      = false := by
  refine ⟨by decide, by decide, by decide⟩

theorem deepFlushBuffer_history (w : DeepWin) :
    (deepFlushBuffer w).history = w.history := by
  unfold deepFlushBuffer
  split <;> rfl

/-- C9 amended: between clears, every history mutation of either
controller is an append, with one exception in `deepsekonemm.py`.  There,
`send_request` appends the system and/or user message, `continue_request`
is `send_request` after appending the synthetic instruction,
non-continuation completion appends the assistant message, and error
handling leaves the history untouched — but completing a continuation
first removes the trailing synthetic user instruction (`pop()`) and then
appends the assistant message.  The `deep.py` controller only appends:
`start_request` appends the user turn (or nothing, on a guard failure or
a continuation), `request_completed` appends the display-derived
assistant message, and `show_error` leaves the history untouched. -/
theorem c9_append_except_pop :
    (∀ (w : DsmWin) (t : Bool), w.isContinuation = false →
       (dsmHandleFinished w t).conversationHistory =
         w.conversationHistory ++ [assistantMsg w.lastResponse]) ∧
    (∀ (w : DsmWin) (t : Bool), w.isContinuation = true →
       (dsmHandleFinished w t).conversationHistory =
         w.conversationHistory.dropLast ++ [assistantMsg w.lastResponse]) ∧
    (∀ (w : DsmWin) (i : String), ¬ (pyTrim i = "" ∧ ¬ w.isContinuation = true) →
       (dsmSendRequest w i true).conversationHistory =
         w.conversationHistory ++
           (if w.firstMessage then [systemMessage] else []) ++
           (if w.isContinuation then [] else [userMsg i])) ∧
    (∀ (w : DsmWin) (i : String), (dsmSendRequest w i false).conversationHistory =
       w.conversationHistory) ∧
    (∀ (w : DsmWin) (i : String) (k : Bool), w.conversationHistory ≠ [] →
       dsmContinueRequest w i k =
         dsmSendRequest
           { w with isContinuation := true,
                    conversationHistory := w.conversationHistory ++ [userMsg continuePrompt] }
           i k) ∧
    (∀ (w : DsmWin) (m : String), (dsmHandleError w m).conversationHistory =
       w.conversationHistory) ∧
    (∀ (w : DeepWin) (p : String) (key model : Option String) (cont : Bool),
       ∃ xs, (deepStartRequest w p key model cont).1.history = w.history ++ xs) ∧
    (∀ w : DeepWin, (deepRequestCompleted w).history =
       w.history ++
         [assistantMsg (lastSegmentAfterMarker (deepFlushBuffer w).displayed)]) ∧
    (∀ w : DeepWin, (deepShowError w).history = w.history) := by
  refine ⟨?_, ?_, ?_, fun w i => rfl, ?_, fun w m => rfl, ?_, ?_, fun w => rfl⟩
  · intro w t hc
    simp [dsmHandleFinished, hc]
  · intro w t hc
    simp [dsmHandleFinished, hc]
  · intro w i hi
    unfold dsmSendRequest
    rw [if_neg (by simp)]
    rw [if_neg hi]
    dsimp only
    split <;> split <;> simp_all
  · intro w i k hne
    unfold dsmContinueRequest
    rw [if_neg hne]
  · intro w p key model cont
    unfold deepStartRequest
    dsimp only
    split
    · exact ⟨[], (List.append_nil _).symm⟩
    · split
      · exact ⟨[], (List.append_nil _).symm⟩
      · split
        · exact ⟨[], (List.append_nil _).symm⟩
        · split
          · exact ⟨[userMsg (pyTrim p)], rfl⟩
          · exact ⟨[], (List.append_nil _).symm⟩
  · intro w
    simp [deepRequestCompleted, deepFlushBuffer_history]

/-- Witness for C9's amended theorem: a non-continuation completion on
the concrete window appends the assistant message. -/
theorem c9_append_except_pop_witness :
    c8DsmStart.isContinuation = false ∧
    (dsmHandleFinished c8DsmStart false).conversationHistory =
      c8DsmStart.conversationHistory ++ [assistantMsg c8DsmStart.lastResponse] :=
  ⟨by decide, c9_append_except_pop.1 c8DsmStart false (by decide)⟩

/-- C10: in the `deepsekonemm.py` worker, a 429 status or a timeout emits
an error signal but is not terminal — the worker sleeps the fixed delay
(60 seconds after 429, 5 seconds after a timeout) and re-issues the
request, so the same session can still deliver content chunks and a
finished signal — with at most 3 attempts in total; any other non-200
status or request exception ends the worker with no retry. -/
theorem c10_retry_policy :
    (∀ rest, dsmRun (Attempt.http 429 [] :: rest) =
       DsmEv.errorEv "Túl sok kérés. Várj 60 másodpercet..." 429 ::
         DsmEv.sleepEv 60 :: dsmRunAux 2 rest) ∧
    (∀ rest, dsmRun (Attempt.timeout :: rest) =
       DsmEv.errorEv "Időtúllépés. Újrapróbálkozás..." 408 ::
         DsmEv.sleepEv 5 :: dsmRunAux 2 rest) ∧
    (dsmRun [Attempt.http 429 [], Attempt.http 200 [c2line1, c2line2]] =
       [DsmEv.errorEv "Túl sok kérés. Várj 60 másodpercet..." 429, DsmEv.sleepEv 60,
        DsmEv.chunk "a", DsmEv.truncatedSig, DsmEv.finishedSig]) ∧
    (dsmRun [Attempt.timeout, Attempt.http 200 [c2line1, c2line2]] =
       [DsmEv.errorEv "Időtúllépés. Újrapróbálkozás..." 408, DsmEv.sleepEv 5,
        DsmEv.chunk "a", DsmEv.truncatedSig, DsmEv.finishedSig]) ∧
    (∀ (status : Nat) (lines : List String) rest, status ≠ 429 → status ≠ 200 →
       dsmRun (Attempt.http status lines :: rest) =
         [DsmEv.errorEv ("API Hiba: " ++ toString status) status]) ∧
    (∀ (msg : String) rest, dsmRun (Attempt.reqErr msg :: rest) =
       [DsmEv.errorEv ("Hálózati hiba: " ++ msg) 500, DsmEv.interruptedSig]) ∧
    (∀ rest, dsmRun (Attempt.timeout :: Attempt.timeout :: Attempt.timeout :: rest) =
       [DsmEv.errorEv "Időtúllépés. Újrapróbálkozás..." 408, DsmEv.sleepEv 5,
        DsmEv.errorEv "Időtúllépés. Újrapróbálkozás..." 408, DsmEv.sleepEv 5,
        DsmEv.errorEv "Időtúllépés. Újrapróbálkozás..." 408, DsmEv.sleepEv 5,
        DsmEv.errorEv "Túl sok próbálkozás. Kérlek próbáld újra később." 500]) ∧
    (∀ rest,
       dsmRun (Attempt.http 429 [] :: Attempt.http 429 [] :: Attempt.http 429 [] :: rest) =
         [DsmEv.errorEv "Túl sok kérés. Várj 60 másodpercet..." 429, DsmEv.sleepEv 60,
          DsmEv.errorEv "Túl sok kérés. Várj 60 másodpercet..." 429, DsmEv.sleepEv 60,
          DsmEv.errorEv "Túl sok kérés. Várj 60 másodpercet..." 429, DsmEv.sleepEv 60]) := by
  refine ⟨fun rest => by simp [dsmRun, dsmRunAux],
    fun rest => by simp [dsmRun, dsmRunAux],
    by decide, by decide, ?_,
    fun msg rest => by simp [dsmRun, dsmRunAux],
    fun rest => by simp [dsmRun, dsmRunAux],
    fun rest => by simp [dsmRun, dsmRunAux]⟩
  intro status lines rest h429 h200
  simp [dsmRun, dsmRunAux, h429, h200]

/-- Witness for C10 at status 500: a server error ends the worker with no
retry. -/
theorem c10_retry_policy_witness :
    (500 : Nat) ≠ 429 ∧ (500 : Nat) ≠ 200 ∧
    dsmRun [Attempt.http 500 []] = [DsmEv.errorEv ("API Hiba: " ++ toString (500 : Nat)) 500] :=
  ⟨by decide, by decide, c10_retry_policy.2.2.2.2.1 500 [] [] (by decide) (by decide)⟩
